import Mathlib

/-!
Shallow embedding of `src/app/engine/grid.py` (class `Grid`), the 9×5 board
model of the snowflake game, together with proofs of the specified
properties.

Modelling decisions, each traceable to the Python source:

* Occupants (`GameObject` instances) are identified by natural-number ids.
  Their mutable `x`, `y` fields and the `move` budget of ninjas live in the
  board state as functions from ids (`posx`, `posy`, `mv`), because the grid
  code mutates `value.x, value.y` on placement.
* `Grid.array` is a Python list of 9 lists of length 5.  Reads through
  `__getitem__` are guarded by `is_valid`, so they are total.  Writes through
  `__setitem__` use raw Python list indexing, which accepts indices in
  `[-len, len)` (negative indices wrap to `len + i`) and raises `IndexError`
  otherwise.  `pyIndex` models that resolution, and `PyRes` models a normal
  return (`ok`) versus a raised `IndexError` (`err`), carrying the state at
  the moment of the raise (mutations already performed are kept, exactly as
  in Python).
* `random.choice` over the spawn ranges is modelled by an injected stream of
  index draws `ds : Nat → Nat × Nat`; draw `i` selects element
  `(ds i).1 % 3` of `range(6, 9)` and `(ds i).2 % 5` of `range(5)`.
* Generators (`surrounding_tiles`) are modelled as the finite lists they
  yield.
-/

namespace Snowflake

/-- A tile marker: the coordinates of one of the 45 `GameObject`s created by
`Grid.initialize_tiles` (its presentation payload is out of scope). -/
structure Tile where
  x : Int
  y : Int
deriving DecidableEq

/-- Board state: the occupancy `array` (outer index `x ∈ [0,8]`, inner index
`y ∈ [0,4]`) as a function to an optional occupant id, the tile list, and the
externally owned occupant fields `x`, `y`, `move` (as functions from ids). -/
structure GState where
  cell : Nat → Nat → Option Nat
  tiles : List Tile
  posx : Nat → Int
  posy : Nat → Int
  mv : Nat → Int

/-- Result of a Python statement: normal return, or an `IndexError` raise.
Both carry the state, since mutations performed before a raise persist. -/
inductive PyRes (σ : Type) where
  | ok : σ → PyRes σ
  | err : σ → PyRes σ

/-- The state carried by a `PyRes`, whether returned normally or raised. -/
def PyRes.state : PyRes σ → σ
  | .ok s => s
  | .err s => s

/-- Whether the operation raised an `IndexError`. -/
def PyRes.isErr : PyRes σ → Bool
  | .ok _ => false
  | .err _ => true

/-- Python list index resolution for a list of length `n`: `l[i]` is in range
iff `-n ≤ i < n`, a negative `i` denoting position `n + i`; otherwise the
access raises `IndexError` (`none`). -/
def pyIndex (n : Nat) (i : Int) : Option Nat :=
  if 0 ≤ i ∧ i < (n : Int) then some i.toNat
  else if -(n : Int) ≤ i ∧ i < 0 then some ((n : Int) + i).toNat
  else none

/-- The position a Python in-range index `i` resolves to in a list of
length `n`. -/
def pyWrap (n : Nat) (i : Int) : Nat :=
  if 0 ≤ i then i.toNat else ((n : Int) + i).toNat

/-- `Grid.is_valid`: `x in range(9) and y in range(5)`. -/
def is_valid (x y : Int) : Bool :=
  (0 ≤ x && x < 9) && (0 ≤ y && y < 5)

/-- `Grid.__getitem__`: returns `array[x][y]` when the coordinate is valid,
and (implicitly) `None` otherwise. -/
def getitem (s : GState) (x y : Int) : Option Nat :=
  if is_valid x y then s.cell x.toNat y.toNat else none

/-- `Grid.__setitem__`: `array[x][y] = value` (Python list indexing, so
negative indices wrap and out-of-range indices raise `IndexError`), then, when
the value is an occupant, that occupant's `x`, `y` fields are overwritten with
the raw index values. -/
def setitem (s : GState) (x y : Int) (v : Option Nat) : PyRes GState :=
  match pyIndex 9 x with
  | none => .err s
  | some xi =>
    match pyIndex 5 y with
    | none => .err s
    | some yi =>
      let s1 : GState :=
        { s with cell := fun a b => if a = xi ∧ b = yi then v else s.cell a b }
      match v with
      | none => .ok s1
      | some o =>
        .ok { s1 with
              posx := fun p => if p = o then x else s.posx p,
              posy := fun p => if p = o then y else s.posy p }

/-- `Grid.add`: place an occupant at its self-reported coordinates. -/
def add (s : GState) (o : Nat) : PyRes GState :=
  setitem s (s.posx o) (s.posy o) (some o)

/-- The row-major scan order of `Grid.coordinates`: `x` outer over `range(9)`,
`y` inner over `range(5)`. -/
def coordList : List (Nat × Nat) :=
  (List.range 9).flatMap (fun x => (List.range 5).map (fun y => (x, y)))

/-- `Grid.coordinates`: scan the table in row-major order for the first cell
holding the given occupant; `(-1, -1)` when absent.  Note that the scan reads
only the occupancy table, never the occupant's own fields. -/
def coordinates (c : Nat → Nat → Option Nat) (o : Nat) : Int × Int :=
  match coordList.find? (fun p => c p.1 p.2 == some o) with
  | some p => ((p.1 : Int), (p.2 : Int))
  | none => (-1, -1)

/-- `Grid.remove`: look up the occupant's coordinates and assign `None`
there through `__setitem__`. -/
def remove (s : GState) (o : Nat) : PyRes GState :=
  setitem s (coordinates s.cell o).1 (coordinates s.cell o).2 none

/-- `Grid.move`: `remove` then place at the new coordinates; an `IndexError`
from the placement propagates with the removal already performed. -/
def move (s : GState) (o : Nat) (x y : Int) : PyRes GState :=
  match remove s o with
  | .ok s1 => setitem s1 x y (some o)
  | .err s1 => .err s1

/-- `Grid.can_move`: valid coordinate and empty cell. -/
def can_move (s : GState) (x y : Int) : Bool :=
  if !(0 ≤ x && x < 9) || !(0 ≤ y && y < 5) then false
  else getitem s x y == none

/-- `Grid.can_move_to_tile`: valid coordinate, `can_move`, and Manhattan
distance from the ninja's fields within its `move` budget.  A pure predicate:
it reads the state and returns a `Bool`, mutating nothing (the Python body
performs only reads). -/
def can_move_to_tile (s : GState) (n : Nat) (x y : Int) : Bool :=
  if !(0 ≤ x && x < 9) || !(0 ≤ y && y < 5) then false
  else if !(can_move s x y) then false
  else decide (|x - s.posx n| + |y - s.posy n| ≤ s.mv n)

/-- `Grid.enemy_spawns[0] = range(6, 9)`. -/
def enemy_spawns_x : List Int := [6, 7, 8]

/-- `Grid.enemy_spawns[1] = range(5)`. -/
def enemy_spawns_y : List Int := [0, 1, 2, 3, 4]

/-- The coordinate produced by the `i`-th pair of `random.choice` draws,
randomness injected as an index stream `ds`. -/
def spawnDraw (ds : Nat → Nat × Nat) (i : Nat) : Int × Int :=
  (enemy_spawns_x.getD ((ds i).1 % enemy_spawns_x.length) 0,
   enemy_spawns_y.getD ((ds i).2 % enemy_spawns_y.length) 0)

/-- The retry loop of `Grid.enemy_spawn_location`: `i` is the index of the
next draw, the second component of the result counts draws performed. -/
def spawnLoop (s : GState) (ds : Nat → Nat × Nat) : Nat → Nat → (Int × Int) × Nat
  | i, 0 => ((-1, -1), i)
  | i, rem + 1 =>
    let c := spawnDraw ds i
    if can_move s c.1 c.2 then (c, i + 1) else spawnLoop s ds (i + 1) rem

/-- `Grid.enemy_spawn_location`: bounded rejection sampling over the spawn
zone; returns the accepted coordinate (or the sentinel `(-1, -1)`) together
with the number of draws performed. -/
def enemy_spawn_location (s : GState) (ds : Nat → Nat × Nat)
    (maxAttempts : Nat := 100) : (Int × Int) × Nat :=
  spawnLoop s ds 0 maxAttempts

/-- The tile list built by `Grid.initialize_tiles`: one tile per coordinate,
appended in row-major order (`x` outer over `range(9)`, `y` inner over
`range(5)`). -/
def initTiles : List Tile :=
  (List.range 9).flatMap (fun x => (List.range 5).map (fun y => ⟨(x : Int), (y : Int)⟩))

/-- `Grid.get_tile`: first tile whose coordinates match. -/
def get_tile (tiles : List Tile) (x y : Int) : Option Tile :=
  tiles.find? (fun t => t.x == x && t.y == y)

/-- Python `range(a, b)` over integers, as a list. -/
def intRange (a b : Int) : List Int :=
  (List.range (b - a).toNat).map (fun k => a + Int.ofNat k)

/-- `Grid.surrounding_tiles`: the sequence of `get_tile` results the generator
yields — every coordinate of the square around the center that is valid and
is not the center, in row-major order. -/
def surrounding_tiles (tiles : List Tile) (cx cy : Int) (d : Int := 1) :
    List (Option Tile) :=
  (intRange (cx - d) (cx + d + 1)).flatMap (fun x =>
    ((intRange (cy - d) (cy + d + 1)).filter
      (fun y => is_valid x y && !(x == cx && y == cy))).map
      (fun y => get_tile tiles x y))

/-- Spec-side description of `surroundingCoordinates`: the coordinates of the
square `[cx-d, cx+d] × [cy-d, cy+d]` that are valid and distinct from the
center, in row-major order (`x` outer, `y` inner). -/
def squareCoordsSpec (cx cy d : Int) : List (Int × Int) :=
  (intRange (cx - d) (cx + d + 1)).flatMap (fun x =>
    ((intRange (cy - d) (cy + d + 1)).filter
      (fun y => is_valid x y && !(x == cx && y == cy))).map
      (fun y => (x, y)))

/-- `surrounding_objects` filters the surrounded tiles to occupied cells and
yields the occupants (not needed by the verified claims, kept for
completeness of the embedding). -/
def surrounding_objects (s : GState) (x y : Int) (d : Int := 1) : List Nat :=
  (surrounding_tiles s.tiles x y d).filterMap (fun t =>
    match t with
    | none => none
    | some tl => getitem s tl.x tl.y)

/-- The invariant of claim C2: each occupant is reported by `at`/`__getitem__`
from at most one coordinate. -/
def AtMostOne (s : GState) : Prop :=
  ∀ (o : Nat) (x1 y1 x2 y2 : Int),
    getitem s x1 y1 = some o → getitem s x2 y2 = some o → x1 = x2 ∧ y1 = y2

/-- Strict row-major order on scan positions. -/
def lexLt (p q : Nat × Nat) : Prop :=
  p.1 < q.1 ∨ (p.1 = q.1 ∧ p.2 < q.2)

instance : DecidableRel lexLt := fun p q => by
  unfold lexLt; infer_instance

/-- The freshly constructed board: empty table, the 45 tiles, all occupant
fields zero. -/
def empty0 : GState :=
  { cell := fun _ _ => none, tiles := initTiles,
    posx := fun _ => 0, posy := fun _ => 0, mv := fun _ => 0 }

/-- Board reached from `empty0` by `set(8, 4, occupant 1)`. -/
def stateA : GState := (setitem empty0 8 4 (some 1)).state

/-- Board reached from `empty0` by `set(0, 0, occupant 1)`. -/
def stateB : GState := (setitem empty0 0 0 (some 1)).state

/-- Board reached from `stateB` by a second `set(1, 1, occupant 1)`. -/
def stateDup : GState := (setitem stateB 1 1 (some 1)).state

/-- Board with ninja 0 at `(0, 0)` holding a move budget of 2. -/
def unitState : GState := { empty0 with mv := fun _ => 2 }

/-- Board whose every cell (in particular the whole spawn zone) is
occupied. -/
def fullState : GState := { empty0 with cell := fun _ _ => some 1 }

/-- A draw stream that always selects the first element of each spawn
range, i.e. the coordinate `(6, 0)`. -/
def ds0 : Nat → Nat × Nat := fun _ => (0, 0)

/-! ### Basic lemmas about indexing, reads and writes -/

theorem pyIndex_in {n : Nat} {i : Int} (h1 : -(n : Int) ≤ i) (h2 : i < (n : Int)) :
    pyIndex n i = some (pyWrap n i) := by
  unfold pyIndex pyWrap
  by_cases h : 0 ≤ i
  · rw [if_pos ⟨h, h2⟩, if_pos h]
  · rw [if_neg (by omega), if_pos ⟨h1, by omega⟩, if_neg h]

theorem pyIndex_out {n : Nat} {i : Int} (h : i < -(n : Int) ∨ (n : Int) ≤ i) :
    pyIndex n i = none := by
  unfold pyIndex
  rw [if_neg (by omega), if_neg (by omega)]

theorem pyWrap_lt {n : Nat} {i : Int} (h1 : -(n : Int) ≤ i) (h2 : i < (n : Int)) :
    pyWrap n i < n := by
  unfold pyWrap; split <;> omega

theorem pyWrap_natCast (n a : Nat) : pyWrap n (a : Int) = a := by
  unfold pyWrap; split <;> omega

theorem is_valid_iff {x y : Int} :
    is_valid x y = true ↔ 0 ≤ x ∧ x < 9 ∧ 0 ≤ y ∧ y < 5 := by
  simp only [is_valid, Bool.and_eq_true, decide_eq_true_eq]
  omega

theorem getitem_coe {s : GState} {a b : Nat} (ha : a < 9) (hb : b < 5) :
    getitem s (a : Int) (b : Int) = s.cell a b := by
  unfold getitem
  rw [if_pos (is_valid_iff.mpr (by omega))]
  simp

theorem getitem_eq_some {s : GState} {x y : Int} {o : Nat}
    (h : getitem s x y = some o) :
    0 ≤ x ∧ x < 9 ∧ 0 ≤ y ∧ y < 5 ∧ s.cell x.toNat y.toNat = some o := by
  unfold getitem at h
  split at h
  · rename_i hv
    have := is_valid_iff.mp hv
    exact ⟨this.1, this.2.1, this.2.2.1, this.2.2.2, h⟩
  · exact absurd h (by simp)

theorem setitem_in_none {s : GState} {x y : Int}
    (hx1 : -9 ≤ x) (hx2 : x < 9) (hy1 : -5 ≤ y) (hy2 : y < 5) :
    setitem s x y none = .ok { s with
      cell := fun a b =>
        if a = pyWrap 9 x ∧ b = pyWrap 5 y then none else s.cell a b } := by
  unfold setitem
  rw [pyIndex_in (by omega) (by omega), pyIndex_in (by omega) (by omega)]

theorem setitem_in_some {s : GState} {x y : Int} {o : Nat}
    (hx1 : -9 ≤ x) (hx2 : x < 9) (hy1 : -5 ≤ y) (hy2 : y < 5) :
    setitem s x y (some o) = .ok { s with
      cell := fun a b =>
        if a = pyWrap 9 x ∧ b = pyWrap 5 y then some o else s.cell a b,
      posx := fun p => if p = o then x else s.posx p,
      posy := fun p => if p = o then y else s.posy p } := by
  unfold setitem
  rw [pyIndex_in (by omega) (by omega), pyIndex_in (by omega) (by omega)]

theorem setitem_out {s : GState} {x y : Int} {v : Option Nat}
    (h : x < -9 ∨ 9 ≤ x ∨ y < -5 ∨ 5 ≤ y) :
    setitem s x y v = .err s := by
  unfold setitem
  by_cases hx : -9 ≤ x ∧ x < 9
  · rw [pyIndex_in (by omega) (by omega), pyIndex_out (by omega)]
  · rw [pyIndex_out (by omega)]

/-! ### The row-major scan of `coordinates` -/

theorem find?_split {α : Type} {p : α → Bool} :
    ∀ {l : List α} {a : α}, l.find? p = some a →
      p a = true ∧ ∃ l1 l2, l = l1 ++ a :: l2 ∧ ∀ b ∈ l1, p b = false := by
  intro l
  induction l with
  | nil => intro a h; simp [List.find?] at h
  | cons x xs ih =>
    intro a h
    by_cases hx : p x
    · rw [List.find?_cons_of_pos _ hx] at h
      cases h
      exact ⟨hx, [], xs, rfl, by simp⟩
    · rw [List.find?_cons_of_neg _ hx] at h
      obtain ⟨hp, l1, l2, rfl, hl1⟩ := ih h
      refine ⟨hp, x :: l1, l2, rfl, ?_⟩
      intro b hb
      rcases List.mem_cons.mp hb with rfl | hb
      · exact Bool.eq_false_iff.mpr hx
      · exact hl1 b hb

theorem mem_coordList {p : Nat × Nat} : p ∈ coordList ↔ p.1 < 9 ∧ p.2 < 5 := by
  unfold coordList
  simp only [List.mem_flatMap, List.mem_map, List.mem_range]
  constructor
  · rintro ⟨a, ha, b, hb, rfl⟩
    exact ⟨ha, hb⟩
  · intro ⟨h1, h2⟩
    exact ⟨p.1, h1, p.2, h2, rfl⟩

theorem coordList_pairwise : coordList.Pairwise lexLt := by decide

theorem coordinates_cases (c : Nat → Nat → Option Nat) (o : Nat) :
    (coordinates c o = (-1, -1) ∧ ∀ a b, a < 9 → b < 5 → c a b ≠ some o)
    ∨ ∃ a b : Nat, a < 9 ∧ b < 5 ∧ coordinates c o = ((a : Int), (b : Int)) ∧
        c a b = some o ∧
        ∀ a' b' : Nat, a' < 9 → b' < 5 → lexLt (a', b') (a, b) →
          c a' b' ≠ some o := by
  unfold coordinates
  rcases hfind : coordList.find? (fun p => c p.1 p.2 == some o) with _ | p
  · left
    rw [hfind]
    refine ⟨rfl, fun a b ha hb hc => ?_⟩
    have := List.find?_eq_none.mp hfind (a, b) (mem_coordList.mpr ⟨ha, hb⟩)
    simp at this
    exact this hc
  · right
    rw [hfind]
    obtain ⟨hp, l1, l2, hsplit, hl1⟩ := find?_split hfind
    have hmem : p ∈ coordList := List.mem_of_find?_eq_some hfind
    have hb := mem_coordList.mp hmem
    refine ⟨p.1, p.2, hb.1, hb.2, rfl, by simpa using hp, ?_⟩
    intro a' b' ha' hb' hlt hc
    have hmem' : (a', b') ∈ coordList := mem_coordList.mpr ⟨ha', hb'⟩
    rw [hsplit] at hmem'
    rcases List.mem_append.mp hmem' with h1 | h2
    · have := hl1 (a', b') h1
      simp at this
      exact this hc
    · rcases List.mem_cons.mp h2 with heq | h2
      · rw [heq] at hlt
        unfold lexLt at hlt
        omega
      · have hpw := coordList_pairwise
        rw [hsplit] at hpw
        have := (List.pairwise_cons.mp (List.pairwise_append.mp hpw).2.1).1 (a', b') h2
        unfold lexLt at this hlt
        omega

/-! ### Structure of `remove` and `move`, and the occupancy invariant -/

@[simp] theorem PyRes.state_ok {σ : Type} (s : σ) : (PyRes.ok s).state = s := rfl

@[simp] theorem PyRes.state_err {σ : Type} (s : σ) : (PyRes.err s).state = s := rfl

@[simp] theorem PyRes.isErr_ok {σ : Type} (s : σ) : (PyRes.ok s).isErr = false := rfl

@[simp] theorem PyRes.isErr_err {σ : Type} (s : σ) : (PyRes.err s).isErr = true := rfl

theorem remove_eq (s : GState) (o : Nat) :
    ∃ a b : Nat, a < 9 ∧ b < 5 ∧
      remove s o = .ok { s with
        cell := fun p q => if p = a ∧ q = b then none else s.cell p q } ∧
      ((∀ p q, p < 9 → q < 5 → s.cell p q ≠ some o) ∨
        (s.cell a b = some o ∧
          ∀ p q, p < 9 → q < 5 → lexLt (p, q) (a, b) → s.cell p q ≠ some o)) := by
  unfold remove
  rcases coordinates_cases s.cell o with ⟨hco, habs⟩ | ⟨a, b, ha, hb, hco, hcell, hfirst⟩
  · refine ⟨8, 4, by omega, by omega, ?_, Or.inl habs⟩
    rw [hco]
    change setitem s (-1) (-1) none = _
    rw [setitem_in_none (by omega) (by omega) (by omega) (by omega)]
    have h8 : pyWrap 9 (-1) = 8 := by decide
    have h4 : pyWrap 5 (-1) = 4 := by decide
    simp only [h8, h4]
  · refine ⟨a, b, ha, hb, ?_, Or.inr ⟨hcell, hfirst⟩⟩
    rw [hco]
    change setitem s (a : Int) (b : Int) none = _
    rw [setitem_in_none (by omega) (by omega) (by omega) (by omega)]
    simp only [pyWrap_natCast]

theorem move_eq_of_remove {s s1 : GState} {o : Nat} {x y : Int}
    (h : remove s o = .ok s1) : move s o x y = setitem s1 x y (some o) := by
  unfold move
  rw [h]

theorem AtMostOne_cell {s : GState} (h : AtMostOne s) {o : Nat} {a b a' b' : Nat}
    (ha : a < 9) (hb : b < 5) (ha' : a' < 9) (hb' : b' < 5)
    (h1 : s.cell a b = some o) (h2 : s.cell a' b' = some o) :
    a = a' ∧ b = b' := by
  have := h o a b a' b'
    (by rw [getitem_coe ha hb]; exact h1)
    (by rw [getitem_coe ha' hb']; exact h2)
  omega

theorem AtMostOne_of_cell {s : GState}
    (h : ∀ (o : Nat) (a b a' b' : Nat), a < 9 → b < 5 → a' < 9 → b' < 5 →
      s.cell a b = some o → s.cell a' b' = some o → a = a' ∧ b = b') :
    AtMostOne s := by
  intro o x1 y1 x2 y2 h1 h2
  obtain ⟨hx1, hx1', hy1, hy1', hc1⟩ := getitem_eq_some h1
  obtain ⟨hx2, hx2', hy2, hy2', hc2⟩ := getitem_eq_some h2
  have := h o x1.toNat y1.toNat x2.toNat y2.toNat
    (by omega) (by omega) (by omega) (by omega) hc1 hc2
  omega

theorem AtMostOne_mono {s s' : GState}
    (hc : ∀ (p q o' : Nat), p < 9 → q < 5 → s'.cell p q = some o' → s.cell p q = some o')
    (h : AtMostOne s) : AtMostOne s' := by
  apply AtMostOne_of_cell
  intro o' p q p' q' hp hq hp' hq' h1 h2
  exact AtMostOne_cell h hp hq hp' hq' (hc _ _ _ hp hq h1) (hc _ _ _ hp' hq' h2)

/-- Claim C2 (amended): `remove` and `move` preserve the invariant that each
occupant reference is stored in at most one cell of the occupancy table,
whatever the starting state satisfying it; `set/__setitem__` (and `add`,
which delegates to it) does not preserve the invariant in general, since it
stores an occupant without first removing it from a previously occupied
cell — see the counterexample theorem. -/
theorem remove_move_preserve_atMostOne (s : GState) (o : Nat) (x y : Int)
    (h : AtMostOne s) :
    AtMostOne (remove s o).state ∧ AtMostOne (move s o x y).state := by
  obtain ⟨a, b, ha, hb, hrem, hcase⟩ := remove_eq s o
  have hA : AtMostOne ({ s with
      cell := fun p q => if p = a ∧ q = b then none else s.cell p q } : GState) := by
    refine AtMostOne_mono ?_ h
    intro p q o' hp hq hc
    dsimp only at hc
    split at hc
    · exact absurd hc (by simp)
    · exact hc
  have h1 : AtMostOne (remove s o).state := by
    rw [hrem, PyRes.state_ok]
    exact hA
  refine ⟨h1, ?_⟩
  have habs : ∀ p q : Nat, p < 9 → q < 5 →
      (if p = a ∧ q = b then none else s.cell p q) ≠ some o := by
    intro p q hp hq hc
    split at hc
    · exact absurd hc (by simp)
    · rename_i hne
      rcases hcase with habs0 | ⟨hcell, _⟩
      · exact habs0 p q hp hq hc
      · exact hne (AtMostOne_cell h hp hq ha hb hc hcell)
  rw [move_eq_of_remove hrem]
  by_cases hin : -9 ≤ x ∧ x < 9 ∧ -5 ≤ y ∧ y < 5
  · rw [setitem_in_some (by omega) (by omega) (by omega) (by omega), PyRes.state_ok]
    apply AtMostOne_of_cell
    intro o' p q p' q' hp hq hp' hq' hc1 hc2
    dsimp only at hc1 hc2
    by_cases ho : o' = o
    · subst ho
      have hcc1 : p = pyWrap 9 x ∧ q = pyWrap 5 y := by
        by_contra hne
        rw [if_neg hne] at hc1
        exact habs p q hp hq hc1
      have hcc2 : p' = pyWrap 9 x ∧ q' = pyWrap 5 y := by
        by_contra hne
        rw [if_neg hne] at hc2
        exact habs p' q' hp' hq' hc2
      omega
    · have hcc1 : ¬(p = pyWrap 9 x ∧ q = pyWrap 5 y) := by
        intro hcc
        rw [if_pos hcc] at hc1
        exact ho (by injection hc1; omega)
      have hcc2 : ¬(p' = pyWrap 9 x ∧ q' = pyWrap 5 y) := by
        intro hcc
        rw [if_pos hcc] at hc2
        exact ho (by injection hc2; omega)
      rw [if_neg hcc1] at hc1
      rw [if_neg hcc2] at hc2
      exact AtMostOne_cell hA hp hq hp' hq' hc1 hc2
  · rw [setitem_out (by omega), PyRes.state_err]
    exact hA

/-- Witness for the amended claim C2 at a concrete input: the fresh board
satisfies the invariant, and so do the results of a `remove` and a `move`
on it. -/
theorem remove_move_preserve_atMostOne_w :
    AtMostOne (remove empty0 0).state ∧ AtMostOne (move empty0 0 1 1).state :=
  remove_move_preserve_atMostOne empty0 0 1 1 (by
    intro o x1 y1 x2 y2 h1 h2
    simp [getitem, empty0] at h1)

/-- Claim C2, counterexample: `stateB` is reached from the fresh board by the
mutation `set(0, 0, occupant 1)` and satisfies the invariant, yet the further
mutation `set(1, 1, occupant 1)` (reaching `stateDup`) leaves occupant 1
stored at both `(0,0)` and `(1,1)`: `set/__setitem__` does not preserve the
at-most-one-cell invariant. -/
theorem setitem_duplicates_atMostOne_cex :
    getitem stateDup 0 0 = some 1 ∧ getitem stateDup 1 1 = some 1 ∧
    AtMostOne stateB ∧ ¬ AtMostOne stateDup := by
  refine ⟨by decide, by decide, ?_, ?_⟩
  · have hcell : ∀ a b : Nat,
        stateB.cell a b = if a = 0 ∧ b = 0 then some 1 else none :=
      fun a b => rfl
    apply AtMostOne_of_cell
    intro o a b a' b' ha hb ha' hb' h1 h2
    rw [hcell] at h1 h2
    by_cases c1 : a = 0 ∧ b = 0
    · by_cases c2 : a' = 0 ∧ b' = 0
      · omega
      · rw [if_neg c2] at h2
        exact absurd h2 (by simp)
    · rw [if_neg c1] at h1
      exact absurd h1 (by simp)
  · intro h
    have := h 1 0 0 1 1 (by decide) (by decide)
    omega

/-! ### Pointwise views of `setitem` -/

theorem pyWrap_nonneg {n : Nat} {i : Int} (h : 0 ≤ i) : pyWrap n i = i.toNat := by
  unfold pyWrap
  rw [if_pos h]

theorem setitem_state_cell {s : GState} {x y : Int} {v : Option Nat}
    (hx1 : -9 ≤ x) (hx2 : x < 9) (hy1 : -5 ≤ y) (hy2 : y < 5) (a b : Nat) :
    (setitem s x y v).state.cell a b =
      if a = pyWrap 9 x ∧ b = pyWrap 5 y then v else s.cell a b := by
  cases v
  · rw [setitem_in_none hx1 hx2 hy1 hy2]
    rfl
  · rw [setitem_in_some hx1 hx2 hy1 hy2]
    rfl

theorem setitem_state_tiles (s : GState) (x y : Int) (v : Option Nat) :
    (setitem s x y v).state.tiles = s.tiles := by
  by_cases hin : -9 ≤ x ∧ x < 9 ∧ -5 ≤ y ∧ y < 5
  · cases v
    · rw [setitem_in_none (by omega) (by omega) (by omega) (by omega)]
      rfl
    · rw [setitem_in_some (by omega) (by omega) (by omega) (by omega)]
      rfl
  · rw [setitem_out (by omega)]
    rfl

theorem setitem_none_posx (s : GState) (x y : Int) :
    (setitem s x y none).state.posx = s.posx := by
  by_cases hin : -9 ≤ x ∧ x < 9 ∧ -5 ≤ y ∧ y < 5
  · rw [setitem_in_none (by omega) (by omega) (by omega) (by omega)]
    rfl
  · rw [setitem_out (by omega)]
    rfl

theorem setitem_none_posy (s : GState) (x y : Int) :
    (setitem s x y none).state.posy = s.posy := by
  by_cases hin : -9 ≤ x ∧ x < 9 ∧ -5 ≤ y ∧ y < 5
  · rw [setitem_in_none (by omega) (by omega) (by omega) (by omega)]
    rfl
  · rw [setitem_out (by omega)]
    rfl

/-! ### Claim theorems: C1, C3, C8, C9, C10 -/

/-- Claim C1 (code bug, evaluated at the failing input): removing an occupant
that is absent from the board is not a no-op.  `coordinates` reports the
sentinel `(-1, -1)`, and `remove` then assigns `None` through it, which
Python's negative list indexing resolves to cell `(8, 4)`.  Here `stateA`
holds occupant 1 at `(8, 4)` and occupant 0 is absent; `remove(occupant 0)`
silently clears `(8, 4)`. -/
theorem remove_absent_clears_corner :
    getitem stateA 8 4 = some 1 ∧
    coordinates stateA.cell 0 = (-1, -1) ∧
    (remove stateA 0).isErr = false ∧
    getitem (remove stateA 0).state 8 4 = none :=
  ⟨by decide, by decide, by decide, by decide⟩

/-- Claim C3, counterexample: occupant 1 is on the board (at `(0, 0)` in
`stateB`) and the destination `(9, 0)` is invalid, yet `move` raises
`IndexError` instead of silently storing the occupant. -/
theorem move_invalid_raises_cex :
    getitem stateB 0 0 = some 1 ∧ is_valid 9 0 = false ∧
    (move stateB 1 9 0).isErr = true :=
  ⟨by decide, by decide, by decide⟩

/-- Claim C3 (amended): `move` performs no bounds or occupancy re-check.  For
any destination with `x ∈ [-9, 8]` and `y ∈ [-5, 4]` — the indices Python
list assignment accepts — it silently stores the occupant in the
corresponding cell (negative coordinates wrapping to the opposite edge) even
when the destination is invalid or occupied, and overwrites the occupant's
fields with the raw destination; for any other destination the underlying
list assignment raises `IndexError`, with the removal step already
performed — the state at the raise is exactly the state `remove` left
behind. -/
theorem move_unchecked (s : GState) (o : Nat) (x y : Int) :
    ((-9 ≤ x ∧ x < 9 ∧ -5 ≤ y ∧ y < 5) →
      (move s o x y).isErr = false ∧
      (move s o x y).state.cell (pyWrap 9 x) (pyWrap 5 y) = some o ∧
      (move s o x y).state.posx o = x ∧ (move s o x y).state.posy o = y)
    ∧ ((x < -9 ∨ 9 ≤ x ∨ y < -5 ∨ 5 ≤ y) →
      (move s o x y).isErr = true ∧
      (move s o x y).state = (remove s o).state) := by
  obtain ⟨a, b, ha, hb, hrem, -⟩ := remove_eq s o
  rw [move_eq_of_remove hrem]
  constructor
  · intro hin
    rw [setitem_in_some (by omega) (by omega) (by omega) (by omega)]
    refine ⟨rfl, by simp, by simp, by simp⟩
  · intro hout
    rw [setitem_out (by omega)]
    refine ⟨rfl, ?_⟩
    rw [hrem]
    rfl

/-- Witness for the amended claim C3: moving occupant 1 (on the board at
`(0, 0)`) to the invalid destination `(-1, 0)` succeeds silently, storing it
in cell `(8, 0)` with its fields set to the raw invalid coordinate, while
moving it to `(9, 0)` raises with the removal already performed. -/
theorem move_unchecked_w :
    (move stateB 1 (-1) 0).isErr = false ∧
    (move stateB 1 (-1) 0).state.cell 8 0 = some 1 ∧
    (move stateB 1 (-1) 0).state.posx 1 = -1 ∧
    (move stateB 1 (-1) 0).state.posy 1 = 0 ∧
    (move stateB 1 9 0).isErr = true ∧
    (move stateB 1 9 0).state = (remove stateB 1).state := by
  have h1 := (move_unchecked stateB 1 (-1) 0).1 (by decide)
  have h2 := (move_unchecked stateB 1 9 0).2 (by decide)
  exact ⟨h1.1, h1.2.1, h1.2.2.1, h1.2.2.2, h2.1, h2.2⟩

/-- Claim C8: for every valid coordinate and occupant, immediately after
`set(x, y, occupant)` the read `at(x, y)` returns that occupant and the
occupant's own fields hold `x` and `y`. -/
theorem setitem_place_fields (s : GState) (x y : Int) (o : Nat)
    (h : is_valid x y = true) :
    (setitem s x y (some o)).isErr = false ∧
    getitem (setitem s x y (some o)).state x y = some o ∧
    (setitem s x y (some o)).state.posx o = x ∧
    (setitem s x y (some o)).state.posy o = y := by
  have hb := is_valid_iff.mp h
  rw [setitem_in_some (by omega) (by omega) (by omega) (by omega)]
  have e1 : pyWrap 9 x = x.toNat := pyWrap_nonneg (by omega)
  have e2 : pyWrap 5 y = y.toNat := pyWrap_nonneg (by omega)
  refine ⟨rfl, ?_, by simp, by simp⟩
  unfold getitem
  rw [if_pos h]
  simp [e1, e2]

/-- Witness for claim C8 at a concrete input. -/
theorem setitem_place_fields_w :
    (setitem empty0 3 2 (some 5)).isErr = false ∧
    getitem (setitem empty0 3 2 (some 5)).state 3 2 = some 5 ∧
    (setitem empty0 3 2 (some 5)).state.posx 5 = 3 ∧
    (setitem empty0 3 2 (some 5)).state.posy 5 = 2 :=
  setitem_place_fields empty0 3 2 5 (by decide)

/-- Claim C9: a read `at(x, y)` at any out-of-range coordinate does not fail
and returns none, regardless of the table's contents (the embedded
`__getitem__` is a total function, as the Python method returns `None`
implicitly when `is_valid` fails). -/
theorem getitem_out_of_range (s : GState) (x y : Int)
    (h : is_valid x y = false) : getitem s x y = none := by
  unfold getitem
  rw [if_neg (by simp [h])]

/-- Witness for claim C9: out-of-range reads on the empty board and on the
fully occupied board both report an empty cell. -/
theorem getitem_out_of_range_w :
    getitem empty0 9 0 = none ∧ getitem fullState (-1) 2 = none :=
  ⟨getitem_out_of_range empty0 9 0 (by decide),
   getitem_out_of_range fullState (-1) 2 (by decide)⟩

/-- Claim C10 (frame property of `set`): for a valid coordinate, `set` does
not raise, leaves every other cell of the occupancy table unchanged, leaves
the tile collection unchanged, and, when storing none, modifies no occupant's
`x`, `y` fields. -/
theorem setitem_frame (s : GState) (x y : Int) (v : Option Nat)
    (h : is_valid x y = true) :
    (setitem s x y v).isErr = false ∧
    (∀ x' y' : Int, ¬(x' = x ∧ y' = y) →
      getitem (setitem s x y v).state x' y' = getitem s x' y') ∧
    (setitem s x y v).state.tiles = s.tiles ∧
    (v = none →
      (setitem s x y v).state.posx = s.posx ∧
      (setitem s x y v).state.posy = s.posy) := by
  have hb := is_valid_iff.mp h
  refine ⟨?_, ?_, setitem_state_tiles s x y v, ?_⟩
  · cases v
    · rw [setitem_in_none (by omega) (by omega) (by omega) (by omega)]
      rfl
    · rw [setitem_in_some (by omega) (by omega) (by omega) (by omega)]
      rfl
  · intro x' y' hne
    unfold getitem
    by_cases hv' : is_valid x' y' = true
    · rw [if_pos hv', if_pos hv',
        setitem_state_cell (by omega) (by omega) (by omega) (by omega)]
      have hb' := is_valid_iff.mp hv'
      rw [if_neg]
      intro hcc
      rw [pyWrap_nonneg (by omega), pyWrap_nonneg (by omega)] at hcc
      exact hne ⟨by omega, by omega⟩
    · rw [if_neg (by simp_all), if_neg (by simp_all)]
  · intro hv
    subst hv
    exact ⟨setitem_none_posx s x y, setitem_none_posy s x y⟩

/-- Witness for claim C10 at a concrete input: `set(2, 3, none)` on the board
holding occupant 1 at `(0, 0)` keeps `(0, 0)` intact, keeps the tiles, and
leaves the occupant field maps untouched. -/
theorem setitem_frame_w :
    (setitem stateB 2 3 none).isErr = false ∧
    getitem (setitem stateB 2 3 none).state 0 0 = getitem stateB 0 0 ∧
    (setitem stateB 2 3 none).state.tiles = stateB.tiles ∧
    (setitem stateB 2 3 none).state.posx = stateB.posx := by
  have h := setitem_frame stateB 2 3 none (by decide)
  exact ⟨h.1, h.2.1 0 0 (by omega), h.2.2.1, (h.2.2.2 rfl).1⟩

/-! ### Claim theorems: C4 and C7 -/

theorem can_move_iff (s : GState) (x y : Int) :
    can_move s x y = true ↔ is_valid x y = true ∧ getitem s x y = none := by
  unfold can_move
  have hde : (!(decide (0 ≤ x) && decide (x < 9)) ||
      !(decide (0 ≤ y) && decide (y < 5))) = !(is_valid x y) := by
    simp [is_valid, Bool.not_and]
  rw [hde]
  cases hv : is_valid x y
  · simp [hv]
  · simp [hv]

/-- Claim C4: `can_move_to_tile` is a pure predicate (it reads the state and
returns a `Bool`, mirroring the Python body, which performs only reads), and
it returns true exactly when the target is valid, the target cell is empty,
and the Manhattan distance from the ninja's position is within its move
budget. -/
theorem can_move_to_tile_iff (s : GState) (n : Nat) (x y : Int)
    (h : 0 ≤ s.mv n) :
    can_move_to_tile s n x y = true ↔
      is_valid x y = true ∧ getitem s x y = none ∧
        |x - s.posx n| + |y - s.posy n| ≤ s.mv n := by
  unfold can_move_to_tile
  have hde : (!(decide (0 ≤ x) && decide (x < 9)) ||
      !(decide (0 ≤ y) && decide (y < 5))) = !(is_valid x y) := by
    simp [is_valid, Bool.not_and]
  rw [hde]
  cases hv : is_valid x y
  · simp [hv]
  · cases hcm : can_move s x y
    · simp [hv, hcm]
      intro hemp
      have := (can_move_iff s x y).mpr ⟨hv, hemp⟩
      simp [this] at hcm
    · have hemp := ((can_move_iff s x y).mp hcm).2
      simp [hv, hcm, hemp]

/-- Witness for claim C4: the ninja at `(0, 0)` with move budget 2 may step
to the empty valid tile `(2, 0)` at Manhattan distance 2. -/
theorem can_move_to_tile_iff_w :
    can_move_to_tile unitState 0 2 0 = true :=
  (can_move_to_tile_iff unitState 0 2 0 (by decide)).mpr
    ⟨by decide, by decide, by decide⟩

/-- Claim C7: `coordinates` (the spec's `locate`) returns the sentinel
`(-1, -1)` exactly when no cell of the table holds the occupant, and
otherwise returns the first coordinate in row-major order (`x` outer over
`[0,8]`, `y` inner over `[0,4]`) whose stored reference equals the occupant.
The answer is derived from the occupancy table alone — the embedded function
takes only the table, never the occupant's own fields, mirroring the Python
scan. -/
theorem coordinates_spec (c : Nat → Nat → Option Nat) (o : Nat) :
    (coordinates c o = (-1, -1) ↔ ∀ a b : Nat, a < 9 → b < 5 → c a b ≠ some o)
    ∧ (coordinates c o ≠ (-1, -1) →
        ∃ a b : Nat, a < 9 ∧ b < 5 ∧ coordinates c o = ((a : Int), (b : Int)) ∧
          c a b = some o ∧
          ∀ a' b' : Nat, a' < 9 → b' < 5 → lexLt (a', b') (a, b) →
            c a' b' ≠ some o) := by
  rcases coordinates_cases c o with ⟨hco, habs⟩ | ⟨a, b, ha, hb, hco, hcell, hfirst⟩
  · exact ⟨⟨fun _ => habs, fun _ => hco⟩, fun hne => absurd hco hne⟩
  · constructor
    · constructor
      · intro hsent
        rw [hco] at hsent
        simp [Prod.ext_iff] at hsent
      · intro hall
        exact absurd hcell (hall a b ha hb)
    · intro _
      exact ⟨a, b, ha, hb, hco, hcell, hfirst⟩

/-- Witness for claim C7: on the empty board every cell differs from
occupant 0, so `coordinates` reports the sentinel. -/
theorem coordinates_spec_w : coordinates empty0.cell 0 = (-1, -1) :=
  (coordinates_spec empty0.cell 0).1.mpr (fun a b _ _ => by simp [empty0])

/-! ### Claim theorem: C5 (spawn-location search) -/

theorem spawnDraw_bounds (ds : Nat → Nat × Nat) (i : Nat) :
    6 ≤ (spawnDraw ds i).1 ∧ (spawnDraw ds i).1 ≤ 8 ∧
      0 ≤ (spawnDraw ds i).2 ∧ (spawnDraw ds i).2 ≤ 4 := by
  unfold spawnDraw
  set k1 := (ds i).1 % enemy_spawns_x.length with hk1
  set k2 := (ds i).2 % enemy_spawns_y.length with hk2
  have h1 : k1 < 3 := by
    rw [hk1]
    exact Nat.mod_lt _ (by decide)
  have h2 : k2 < 5 := by
    rw [hk2]
    exact Nat.mod_lt _ (by decide)
  clear_value k1 k2
  interval_cases k1 <;> interval_cases k2 <;> decide

theorem can_move_zone {s : GState} {x y : Int} (hx1 : 6 ≤ x) (hx2 : x ≤ 8)
    (hy1 : 0 ≤ y) (hy2 : y ≤ 4) :
    can_move s x y = (getitem s x y == none) := by
  unfold can_move
  rw [if_neg]
  simp
  omega

theorem spawnLoop_all_fail (s : GState) (ds : Nat → Nat × Nat) :
    ∀ rem i : Nat,
      (∀ k, can_move s (spawnDraw ds k).1 (spawnDraw ds k).2 = false) →
      spawnLoop s ds i rem = ((-1, -1), i + rem) := by
  intro rem
  induction rem with
  | zero => intro i _; simp [spawnLoop]
  | succ r ih =>
    intro i hall
    simp only [spawnLoop]
    rw [if_neg (by simp [hall i])]
    have : i + 1 + r = i + (r + 1) := by omega
    rw [ih (i + 1) hall, this]

theorem spawnLoop_first_hit (s : GState) (ds : Nat → Nat × Nat) :
    ∀ rem i j : Nat, i ≤ j → j < i + rem →
      (∀ k, i ≤ k → k < j →
        can_move s (spawnDraw ds k).1 (spawnDraw ds k).2 = false) →
      can_move s (spawnDraw ds j).1 (spawnDraw ds j).2 = true →
      spawnLoop s ds i rem = (spawnDraw ds j, j + 1) := by
  intro rem
  induction rem with
  | zero => intro i j h1 h2 _ _; omega
  | succ r ih =>
    intro i j hij hlt hfail hhit
    simp only [spawnLoop]
    by_cases hji : i = j
    · subst hji
      rw [if_pos hhit]
    · have hf := hfail i le_rfl (by omega)
      rw [if_neg (by simp [hf])]
      exact ih (i + 1) j (by omega) (by omega)
        (fun k hk1 hk2 => hfail k (by omega) hk2) hhit

/-- Claim C5: with randomness injected as a stream of index draws, each
candidate drawn by `enemy_spawn_location` lies in the spawn zone
(`x ∈ [6,8]`, `y ∈ [0,4]`); the search returns the first drawn coordinate
whose cell is empty, having consumed that draw; and on a board whose whole
spawn zone is occupied it returns the sentinel `(-1, -1)` after exactly
`maxAttempts` draws. -/
theorem enemy_spawn_location_spec (s : GState) (ds : Nat → Nat × Nat) (m : Nat) :
    (∀ i, 6 ≤ (spawnDraw ds i).1 ∧ (spawnDraw ds i).1 ≤ 8 ∧
        0 ≤ (spawnDraw ds i).2 ∧ (spawnDraw ds i).2 ≤ 4)
    ∧ (∀ j, j < m →
        getitem s (spawnDraw ds j).1 (spawnDraw ds j).2 = none →
        (∀ i, i < j → getitem s (spawnDraw ds i).1 (spawnDraw ds i).2 ≠ none) →
        enemy_spawn_location s ds m = (spawnDraw ds j, j + 1))
    ∧ ((∀ x y : Int, 6 ≤ x → x ≤ 8 → 0 ≤ y → y ≤ 4 → getitem s x y ≠ none) →
        enemy_spawn_location s ds m = ((-1, -1), m)) := by
  refine ⟨spawnDraw_bounds ds, ?_, ?_⟩
  · intro j hj hemp hocc
    unfold enemy_spawn_location
    apply spawnLoop_first_hit s ds m 0 j (by omega) (by omega)
    · intro k _ hk
      obtain ⟨b1, b2, b3, b4⟩ := spawnDraw_bounds ds k
      rw [can_move_zone b1 b2 b3 b4]
      have hne := hocc k hk
      cases hgi : getitem s (spawnDraw ds k).1 (spawnDraw ds k).2
      · exact absurd hgi hne
      · rfl
    · obtain ⟨b1, b2, b3, b4⟩ := spawnDraw_bounds ds j
      rw [can_move_zone b1 b2 b3 b4, hemp]
      rfl
  · intro hfull
    unfold enemy_spawn_location
    have hres := spawnLoop_all_fail s ds m 0 ?_
    · simpa using hres
    · intro k
      obtain ⟨b1, b2, b3, b4⟩ := spawnDraw_bounds ds k
      rw [can_move_zone b1 b2 b3 b4]
      have hocc := hfull _ _ b1 b2 b3 b4
      cases hgi : getitem s (spawnDraw ds k).1 (spawnDraw ds k).2
      · exact absurd hgi hocc
      · rfl

/-- Witness for claim C5: on the empty board the very first draw `(6, 0)` is
accepted after one draw; on the fully occupied board three attempts all fail
and the sentinel is returned after exactly three draws. -/
theorem enemy_spawn_location_spec_w :
    enemy_spawn_location empty0 ds0 5 = ((6, 0), 1) ∧
    enemy_spawn_location fullState ds0 3 = ((-1, -1), 3) := by
  constructor
  · exact (enemy_spawn_location_spec empty0 ds0 5).2.1 0 (by omega) (by decide)
      (fun i hi => absurd hi (by omega))
  · refine (enemy_spawn_location_spec fullState ds0 3).2.2 ?_
    intro x y h1 h2 h3 h4 hcon
    rw [getitem, if_pos (is_valid_iff.mpr (by omega))] at hcon
    simp [fullState] at hcon

/-! ### Claim theorem: C6 (neighborhood enumeration) -/

theorem mem_intRange {a lo hi : Int} : a ∈ intRange lo hi ↔ lo ≤ a ∧ a < hi := by
  unfold intRange
  rw [List.mem_map]
  simp only [Int.ofNat_eq_natCast, List.mem_range]
  constructor
  · rintro ⟨k, hk, rfl⟩
    omega
  · intro h
    exact ⟨(a - lo).toNat, by omega, by omega⟩

theorem get_tile_initTiles {x y : Int} (h : is_valid x y = true) :
    get_tile initTiles x y = some ⟨x, y⟩ := by
  obtain ⟨h1, h2, h3, h4⟩ := is_valid_iff.mp h
  interval_cases x <;> interval_cases y <;> decide

/-- Claim C6: for a distance `d ≥ 0`, `surrounding_tiles` on the initialized
tile set yields (as tile markers) exactly the coordinates of the square
`[cx-d, cx+d] × [cy-d, cy+d]` that are valid and distinct from the center, in
row-major order (`x` outer, `y` inner): mapping each yielded tile to its
coordinates gives the spec-side list `squareCoordsSpec`, whose members are
characterized by exactly those three conditions; in particular around
`(4, 2)` at distance 1 it yields the eight ring tiles in row-major order. -/
theorem surrounding_tiles_spec (cx cy d : Int) (h : 0 ≤ d) :
    ((surrounding_tiles initTiles cx cy d).map
        (fun t => Option.map (fun tl => (tl.x, tl.y)) t)
      = (squareCoordsSpec cx cy d).map some)
    ∧ (∀ p : Int × Int, p ∈ squareCoordsSpec cx cy d ↔
        (cx - d ≤ p.1 ∧ p.1 ≤ cx + d ∧ cy - d ≤ p.2 ∧ p.2 ≤ cy + d ∧
          is_valid p.1 p.2 = true ∧ p ≠ (cx, cy)))
    ∧ surrounding_tiles initTiles 4 2 1 =
        [some ⟨3, 1⟩, some ⟨3, 2⟩, some ⟨3, 3⟩, some ⟨4, 1⟩,
         some ⟨4, 3⟩, some ⟨5, 1⟩, some ⟨5, 2⟩, some ⟨5, 3⟩] := by
  refine ⟨?_, ?_, by decide⟩
  · unfold surrounding_tiles squareCoordsSpec
    rw [List.map_flatMap, List.map_flatMap]
    apply List.flatMap_congr
    intro x _
    rw [List.map_map, List.map_map]
    apply List.map_congr_left
    intro y hy
    have hv : is_valid x y = true := by
      have := (List.mem_filter.mp hy).2
      simp only [Bool.and_eq_true] at this
      exact this.1
    simp [Function.comp, get_tile_initTiles hv]
  · intro p
    unfold squareCoordsSpec
    simp only [List.mem_flatMap, List.mem_map, List.mem_filter, mem_intRange,
      Bool.and_eq_true, Bool.not_eq_true', Bool.and_eq_false_iff,
      beq_eq_false_iff_ne]
    constructor
    · rintro ⟨x, hx, y, ⟨hy, hvy, hcen⟩, rfl⟩
      refine ⟨by omega, by omega, by omega, by omega, hvy, ?_⟩
      intro hcon
      rw [Prod.ext_iff] at hcon
      rcases hcen with hc | hc
      · exact hc hcon.1
      · exact hc hcon.2
    · intro ⟨h1, h2, h3, h4, hv, hne⟩
      refine ⟨p.1, ⟨by omega, by omega⟩, p.2, ⟨⟨by omega, by omega⟩, hv, ?_⟩, rfl⟩
      by_cases hcx : p.1 = cx
      · right
        intro hcy
        exact hne (Prod.ext hcx hcy)
      · left
        exact hcx

/-- Witness for claim C6: the concrete ring around `(4, 2)` at distance 1. -/
theorem surrounding_tiles_spec_w :
    surrounding_tiles initTiles 4 2 1 =
      [some ⟨3, 1⟩, some ⟨3, 2⟩, some ⟨3, 3⟩, some ⟨4, 1⟩,
       some ⟨4, 3⟩, some ⟨5, 1⟩, some ⟨5, 2⟩, some ⟨5, 3⟩] :=
  (surrounding_tiles_spec 4 2 1 (by omega)).2.2

end Snowflake
